import Mathlib

/-!
A verification development for the tritonhttp static-file HTTP/1.1 server.

The Go sources are shallowly embedded: the raw byte strings flowing over a
connection are modelled as `List Char` (the protocol data handled by the
server is ASCII, so one Go byte corresponds to one `Char`), Go's
`map[string]string` values are modelled as association lists, fallible
operations return `Option`/`Except`, and the side effects of
`HandleConnection` (responses written to the socket, closing the socket) are
made explicit as a trace of `Response` values plus an `Option` of the
retained buffer (`none` meaning the connection was closed).

The filesystem-dependent collaborator `HandleGoodRequest` and the
time-dependent `FormatTime(time.Now())` are abstracted as parameters
(`good : Request → Response` and `date : String`).
-/

namespace Triton

/-- The CRLF line terminator as characters. -/
def CRLFc : List Char := ['\r', '\n']

/-- The request-end delimiter CRLF CRLF (`requestEndDelim` in Go). -/
def delimC : List Char := ['\r', '\n', '\r', '\n']

/-- Modelled from the spec: the Line Scanner `ReadLine`, absent from the
given sources, which per the spec produces the next line terminated by CRLF
with the CRLF stripped, consumes no bytes beyond the terminator, and signals
an error (here `none`) when no complete line is available (including
end-of-stream or malformed termination). Returns the line and the unread
rest of the stream. -/
def readLine : List Char → Option (List Char × List Char)
  | [] => none
  | '\r' :: '\n' :: rest => some ([], rest)
  | c :: rest => (readLine rest).map (fun p => (c :: p.1, p.2))

/-- Split a character list at the first occurrence of `sep`:
`some (before, after)` or `none` if `sep` does not occur. -/
def splitFirst (sep : Char) : List Char → Option (List Char × List Char)
  | [] => none
  | c :: rest =>
    if c = sep then some ([], rest)
    else (splitFirst sep rest).map (fun p => (c :: p.1, p.2))

/-- Go `strings.SplitN(s, string sep, n)` for `n ≥ 0`: at most `n`
substrings, the last one holding the unsplit remainder. -/
def goSplitN (sep : Char) : Nat → List Char → List (List Char)
  | 0, _ => []
  | 1, s => [s]
  | n + 2, s =>
    match splitFirst sep s with
    | none => [s]
    | some (pre, post) => pre :: goSplitN sep (n + 1) post

/-- Accumulator for `splitAll`. -/
def splitAllAux (sep : Char) : List Char → List Char → List (List Char)
  | acc, [] => [acc.reverse]
  | acc, c :: rest =>
    if c = sep then acc.reverse :: splitAllAux sep [] rest
    else splitAllAux sep (c :: acc) rest

/-- Go `strings.Split(s, string sep)`: split at every occurrence of `sep`. -/
def splitAll (sep : Char) (s : List Char) : List (List Char) :=
  splitAllAux sep [] s

/-- The whitespace class of Go's RE2 `\s`, namely `[\t\n\f\r ]`. -/
def isRESpace (c : Char) : Bool :=
  c == ' ' || c == '\t' || c == '\n' || c == '\x0c' || c == '\r'

/-- The ASCII part of Go's `unicode.IsSpace` (used by `strings.TrimSpace`);
the header values handled here are ASCII. -/
def isUniSpace (c : Char) : Bool :=
  c == ' ' || c == '\t' || c == '\n' || c == '\x0b' || c == '\x0c' || c == '\r'

/-- Go `strings.TrimSpace` on a character list. -/
def trimSpace (l : List Char) : List Char :=
  ((l.dropWhile isUniSpace).reverse.dropWhile isUniSpace).reverse

/-- The `Request` struct of `request.go`. -/
structure Request where
  Method : String
  URL : String
  Proto : String
  Header : List (String × String)
  Host : String
  Close : Bool
deriving DecidableEq

/-- Go map assignment `m[k] = v`: overwrite the entry if the key is
present, otherwise append it. -/
def mapSet (m : List (String × String)) (k v : String) : List (String × String) :=
  if m.any (fun p => p.1 = k) then m.map (fun p => if p.1 = k then (k, v) else p)
  else m ++ [(k, v)]

/-- `ParseRequestInitLine` from `request.go`: `strings.SplitN(line, " ", 3)`
and require exactly three fields; returns `(method, target, version)`. -/
def parseRequestInitLine (line : List Char) : Option (String × String × String) :=
  match goSplitN ' ' 3 line with
  | [m, u, p] => some (m.asString, u.asString, p.asString)
  | _ => none

/-- `ParseRequestHeader` from `request.go`: split on the regexp `:\s*`
(first colon, then greedily dropping RE2 whitespace), reject a key that is
empty or ends in a space byte, divert `connection` and `host`
(case-insensitively) to the `Close`/`Host` fields, and store any other key
verbatim in the header map. -/
def parseRequestHeader (r : Request) (line : List Char) : Option Request :=
  match splitFirst ':' line with
  | none => none
  | some (k0, rest) =>
    let v := rest.dropWhile isRESpace
    let key := k0.map Char.toLower
    if (key ≠ [] ∧ key.getLast? = some ' ') ∨ key.length = 0 then none
    else if key = "connection".toList then
      some { r with Close := trimSpace v == "close".toList }
    else if key = "host".toList then
      some { r with Host := v.asString }
    else
      some { r with Header := mapSet r.Header k0.asString v.asString }

/-- `ValidateRequest` from `request.go`; `some msg` is the returned error. -/
def validateRequest (r : Request) : Option String :=
  if r.Method ≠ "GET" then some "ErrMethod"
  else if r.URL = "" ∨ r.URL.toList.head? ≠ some '/' then some "ErrURL"
  else if r.Proto ≠ "HTTP/1.1" then some "ErrProto"
  else if r.Host = "" then some "ErrHost"
  else none

/-- The header-reading loop of `ReadRequest`: read lines until the line is
empty or the read fails (both `break` in Go), parsing each line into the
request; a header parse error aborts with an error. The `fuel` argument
makes the recursion structural; each loop iteration consumes at least the
two terminator characters, so `s.length + 1` fuel is always sufficient. -/
def readHeaders : Nat → Request → List Char → Except String Request
  | 0, r, _ => Except.ok r
  | fuel + 1, r, s =>
    match readLine s with
    | none => Except.ok r
    | some (line, rest) =>
      if line = [] then Except.ok r
      else
        match parseRequestHeader r line with
        | none => Except.error "ErrBadHeader"
        | some r' => readHeaders fuel r' rest

/-- `ReadRequest` from `request.go`: read the init line, parse it, read
headers, validate. The pair is (result, bytesReceived); `Except.error`
corresponds to Go's `(nil, bytesReceived, err)` return. -/
def readRequest (s : List Char) : Except String Request × Bool :=
  match readLine s with
  | none => (Except.error "ErrReadInitLine", false)
  | some (line, rest) =>
    match parseRequestInitLine line with
    | none => (Except.error "ErrParseInitLine", false)
    | some (m, u, p) =>
      let r0 : Request :=
        { Method := m, URL := u, Proto := p, Header := [], Host := "", Close := false }
      match readHeaders (rest.length + 1) r0 rest with
      | Except.error e => (Except.error e, false)
      | Except.ok r =>
        match validateRequest r with
        | some e => (Except.error e, false)
        | none => (Except.ok r, true)

/-- The `Response` struct of `response.go`. -/
structure Response where
  StatusCode : Int
  Proto : String
  Header : List (String × String)
  Request : Option Request
  FilePath : String
deriving DecidableEq

/-- The `Proto` package variable. -/
def Proto : String := "HTTP/1.1"

/-- Title-case one hyphen-delimited segment of a header key. -/
def titleWord : List Char → List Char
  | [] => []
  | c :: rest => Char.toUpper c :: rest.map Char.toLower

/-- Modelled from the spec: `CanonicalHeaderKey`, absent from the given
sources, which per the spec title-cases each hyphen-delimited segment of a
header name. -/
def canonicalHeaderKey (s : String) : String :=
  String.intercalate "-" ((splitAll '-' s.toList).map (fun w => (titleWord w).asString))

/-- `HandleBadRequest` from the server source: a 400 response carrying a
`Date` header and `Connection: close`, no file body. The `date` parameter
stands for `FormatTime(time.Now())`. -/
def handleBadRequest (date : String) : Response :=
  { StatusCode := 400
    Proto := Proto
    Header := [(canonicalHeaderKey "Date", date), (canonicalHeaderKey "Connection", "close")]
    Request := none
    FilePath := "" }

/-- The post-dispatch fixup in `HandleConnection`: `HandleNotFound` when
`HandleGoodRequest` produced a 404 (clearing the file path), otherwise
`HandleOK`; both stamp the protocol version. -/
def finalizeResponse (_req : Request) (res : Response) : Response :=
  if res.StatusCode = 404 then { res with StatusCode := 404, Proto := Proto, FilePath := "" }
  else { res with StatusCode := 200, Proto := Proto }

/-- `mapStatusWithMessage` from `response.go`, as a total function: Go map
indexing yields the zero value `""` for a code outside the table. -/
def mapStatusWithMessage (code : Int) : String :=
  if code = 200 then "OK"
  else if code = 400 then "Bad Request"
  else if code = 404 then "Not Found"
  else ""

/-- `WriteStatusLine` from `response.go`: the bytes written to the socket,
per `fmt.Sprintf("%v %v %v\r\n", proto, code, message)`. -/
def writeStatusLine (res : Response) : String :=
  res.Proto ++ " " ++ toString res.StatusCode ++ " " ++ mapStatusWithMessage res.StatusCode ++ "\r\n"

/-- Lexicographic comparison of character lists by code point; on the UTF-8
encodings Go compares, byte-wise order coincides with this code-point
order, so this is the order of Go's `sort.Strings`. -/
def listLe : List Char → List Char → Bool
  | [], _ => true
  | _ :: _, [] => false
  | a :: as, b :: bs => if a = b then listLe as bs else decide (a < b)

/-- String comparison of Go's `sort.Strings`. -/
def strLeB (a b : String) : Bool := listLe a.toList b.toList

/-- `WriteSortedHeaders` from `response.go`: if the header map is nonempty,
emit `k: v\r\n` for every key in sorted order, then a terminating CRLF. -/
def writeSortedHeaders (header : List (String × String)) : String :=
  (if header.length ≠ 0 then
    String.join ((List.insertionSort (fun a b => strLeB a b = true) (header.map Prod.fst)).map
      (fun k => k ++ ": " ++ ((header.lookup k).getD "") ++ "\r\n"))
  else "") ++ "\r\n"

/-- The classification of the `(size, err)` outcome of `conn.Read` that
`HandleConnection` distinguishes: no error, `io.EOF`, a `net.Error` whose
`Timeout()` is true, or any other error. -/
inductive ErrKind
  | noErr
  | eof
  | timeout
  | other
deriving DecidableEq

/-- One `conn.Read` outcome: the bytes read (`buf[:size]`) and the error
classification. -/
structure ReadResult where
  data : List Char
  err : ErrKind
deriving DecidableEq

/-- The response written for one successfully parsed candidate: the
collaborator `HandleGoodRequest` (abstracted as `good`) followed by the
404/200 fixup. For a candidate that fails to parse, the 400 response. -/
def respOf (good : Request → Response) (date : String) (c : List Char) : Response :=
  match (readRequest (c ++ CRLFc)).1 with
  | Except.ok req => finalizeResponse req (good req)
  | Except.error _ => handleBadRequest date

/-- The per-candidate loop of `HandleConnection`: parse `candidate ++ CRLF`;
on parse failure write a 400 response, close and stop; on success write the
response and, if the request asked to close, close and stop. Returns the
responses written in order and whether the connection was closed. -/
def processCandidates (good : Request → Response) (date : String) :
    List (List Char) → List Response × Bool
  | [] => ([], false)
  | c :: rest =>
    match (readRequest (c ++ CRLFc)).1 with
    | Except.error _ => ([handleBadRequest date], true)
    | Except.ok req =>
      let res := finalizeResponse req (good req)
      if req.Close then ([res], true)
      else
        let out := processCandidates good date rest
        (res :: out.1, out.2)

/-- Does the list start with the CRLF CRLF delimiter? -/
def startsWithDelim : List Char → Bool
  | '\r' :: '\n' :: '\r' :: '\n' :: _ => true
  | _ => false

/-- Go `strings.LastIndex(s, "\r\n\r\n")`: the start index of the last
occurrence of the delimiter, or `none` (Go's `-1`; `strings.Contains` is
this being `some`). -/
def lastDelimIdx : List Char → Option Nat
  | [] => none
  | c :: rest =>
    match lastDelimIdx rest with
    | some i => some (i + 1)
    | none => if startsWithDelim (c :: rest) then some 0 else none

/-- Accumulator for `splitOnDelim`. -/
def splitOnDelimAux : List Char → List Char → List (List Char)
  | acc, '\r' :: '\n' :: '\r' :: '\n' :: rest => acc.reverse :: splitOnDelimAux [] rest
  | acc, c :: rest => splitOnDelimAux (c :: acc) rest
  | acc, [] => [acc.reverse]

/-- Go `strings.Split(s, "\r\n\r\n")`: split at every (leftmost,
non-overlapping) occurrence of the delimiter. -/
def splitOnDelim (s : List Char) : List (List Char) :=
  splitOnDelimAux [] s

/-- The delimiter-scanning part of one `HandleConnection` iteration: if the
buffer contains the delimiter, split the prefix up to the last occurrence
into candidates and process them, keeping the bytes after the last
delimiter as the next buffer (unless the candidate loop closed the
connection); otherwise keep accumulating. -/
def processBuffer (good : Request → Response) (date : String) (buf : List Char) :
    List Response × Option (List Char) :=
  match lastDelimIdx buf with
  | none => ([], some buf)
  | some i =>
    let out := processCandidates good date (splitOnDelim (buf.take i))
    (out.1, if out.2 then none else some (buf.drop (i + 4)))

/-- One full iteration of the `HandleConnection` loop, given the retained
buffer `remaining` and the outcome `r` of this iteration's `conn.Read`.
Returns the responses written during the iteration and `some` next buffer,
or `none` if the connection was closed. Mirrors the Go control flow: on an
error or a zero-byte read, a non-empty buffer yields a 400 and a close; an
empty buffer closes silently only for `io.EOF`; a timeout closes silently;
everything else falls through to appending and scanning the buffer. -/
def connStep (good : Request → Response) (date : String) (remaining : List Char)
    (r : ReadResult) : List Response × Option (List Char) :=
  if (r.err ≠ ErrKind.noErr ∨ r.data.length = 0) ∧ remaining ≠ [] then
    ([handleBadRequest date], none)
  else if (r.err ≠ ErrKind.noErr ∨ r.data.length = 0) ∧ remaining = [] ∧ r.err = ErrKind.eof then
    ([], none)
  else if r.err = ErrKind.timeout then
    ([], none)
  else
    processBuffer good date (remaining ++ r.data)

end Triton

namespace Triton

/-! ### Helper lemmas about splitting -/

lemma splitFirst_eq_none {sep : Char} : ∀ (s : List Char), splitFirst sep s = none ↔ sep ∉ s
  | [] => by simp [splitFirst]
  | c :: rest => by
    rcases eq_or_ne c sep with h | h
    · subst h; simp [splitFirst]
    · rw [splitFirst, if_neg h, Option.map_eq_none', splitFirst_eq_none rest]
      simp [List.mem_cons, Ne.symm h]

lemma splitFirst_eq_some {sep : Char} : ∀ (s : List Char) {pre post : List Char},
    splitFirst sep s = some (pre, post) → s = pre ++ sep :: post ∧ sep ∉ pre
  | [], pre, post => by simp [splitFirst]
  | c :: rest, pre, post => by
    rcases eq_or_ne c sep with h | h
    · subst h
      rw [splitFirst, if_pos rfl]
      intro he
      simp only [Option.some.injEq, Prod.mk.injEq] at he
      obtain ⟨h1, h2⟩ := he
      subst h1; subst h2
      simp
    · rw [splitFirst, if_neg h]
      intro he
      rcases hsf : splitFirst sep rest with _ | ⟨p1, p2⟩
      · rw [hsf] at he; simp at he
      · rw [hsf] at he
        simp only [Option.map_some', Option.some.injEq, Prod.mk.injEq] at he
        obtain ⟨h1, h2⟩ := he
        obtain ⟨ih1, ih2⟩ := splitFirst_eq_some rest hsf
        subst h1; subst h2
        refine ⟨by simp [ih1], ?_⟩
        simp only [List.mem_cons, not_or]
        exact ⟨Ne.symm h, ih2⟩

lemma goSplitN_three (sep : Char) (s : List Char) :
    goSplitN sep 3 s = match splitFirst sep s with
      | none => [s]
      | some (pre, post) => pre :: goSplitN sep 2 post := rfl

lemma goSplitN_two (sep : Char) (s : List Char) :
    goSplitN sep 2 s = match splitFirst sep s with
      | none => [s]
      | some (pre, post) => pre :: goSplitN sep 1 post := rfl

lemma goSplitN_one (sep : Char) (s : List Char) : goSplitN sep 1 s = [s] := rfl

/-! ### Claim C5: request-line splitting -/

/-- C5 counterexample: the line `A B C D` splits (in the unbounded sense) into
four space-separated fields, yet `ParseRequestInitLine` accepts it, folding
the extra field into the version, instead of rejecting it as a parse error. -/
theorem claim_C5_cex :
    parseRequestInitLine ("A B C D".toList) = some ("A", "B", "C D") ∧
    ("A B C D".toList).count ' ' + 1 = 4 := ⟨rfl, rfl⟩

/-- C5 (amended): `ParseRequestInitLine` splits the line with
`strings.SplitN(line, " ", 3)` into at most three fields; it rejects the
line exactly when it has fewer than three space-separated fields (fewer
than two spaces), and on any line with two or more spaces it succeeds, with
the method the text before the first space, the target the text before the
second, and the version the entire remainder (spaces included). -/
theorem claim_C5 (line : List Char) :
    (parseRequestInitLine line = none ↔ line.count ' ' < 2) ∧
    (2 ≤ line.count ' ' → ∃ m u p : List Char,
      parseRequestInitLine line = some (m.asString, u.asString, p.asString) ∧
      line = m ++ ' ' :: (u ++ ' ' :: p) ∧ ' ' ∉ m ∧ ' ' ∉ u) := by
  rcases h1 : splitFirst ' ' line with _ | ⟨pre, post⟩
  · have hn : ' ' ∉ line := (splitFirst_eq_none line).mp h1
    have hc : line.count ' ' = 0 := List.count_eq_zero.mpr hn
    have hg : goSplitN ' ' 3 line = [line] := by
      simp only [goSplitN_three, h1]
    have hp : parseRequestInitLine line = none := by
      unfold parseRequestInitLine; rw [hg]
    refine ⟨by rw [hp, hc]; simp, ?_⟩
    intro h2; rw [hc] at h2; omega
  · obtain ⟨hline, hpre⟩ := splitFirst_eq_some line h1
    rcases h2 : splitFirst ' ' post with _ | ⟨q1, q2⟩
    · have hn : ' ' ∉ post := (splitFirst_eq_none post).mp h2
      have hc : line.count ' ' = 1 := by
        rw [hline, List.count_append, List.count_eq_zero.mpr hpre,
          List.count_cons_self, List.count_eq_zero.mpr hn]
      have hg : goSplitN ' ' 3 line = [pre, post] := by
        simp only [goSplitN_three, h1, goSplitN_two, h2]
      have hp : parseRequestInitLine line = none := by
        unfold parseRequestInitLine; rw [hg]
      refine ⟨by rw [hp, hc]; simp, ?_⟩
      intro h3; rw [hc] at h3; omega
    · obtain ⟨hpost, hq1⟩ := splitFirst_eq_some post h2
      have hc : line.count ' ' = q2.count ' ' + 2 := by
        rw [hline, hpost, List.count_append, List.count_eq_zero.mpr hpre,
          List.count_cons_self, List.count_append, List.count_eq_zero.mpr hq1,
          List.count_cons_self]
        omega
      have hg : goSplitN ' ' 3 line = [pre, q1, q2] := by
        simp only [goSplitN_three, h1, goSplitN_two, h2, goSplitN_one]
      have hp : parseRequestInitLine line =
          some (pre.asString, q1.asString, q2.asString) := by
        unfold parseRequestInitLine; rw [hg]
      refine ⟨by rw [hp, hc]; simp, ?_⟩
      intro _
      exact ⟨pre, q1, q2, hp, by rw [hline, hpost], hpre, hq1⟩

/-- C5 witness: a well-formed request line is accepted with its three fields. -/
theorem claim_C5_witness :
    ∃ m u p : List Char,
      parseRequestInitLine ("GET / HTTP/1.1".toList) =
        some (m.asString, u.asString, p.asString) ∧
      "GET / HTTP/1.1".toList = m ++ ' ' :: (u ++ ' ' :: p) ∧ ' ' ∉ m ∧ ' ' ∉ u :=
  (claim_C5 ("GET / HTTP/1.1".toList)).2 (by decide)

end Triton

namespace Triton

/-! ### Claim C2: the bytesReceived flag -/

/-- C2: `ReadRequest` is documented to return `bytesReceived = true` whenever
some bytes were read before a failure, but the code returns `false` on every
error path. On the stream `BAD\r\n` the init line `BAD` is read in full
(`ReadLine` succeeds and consumes the five bytes), the init-line parse then
fails, and `ReadRequest` nevertheless reports `bytesReceived = false`. -/
theorem claim_C2 :
    readRequest ("BAD\r\n".toList) = (Except.error "ErrParseInitLine", false) ∧
    readLine ("BAD\r\n".toList) = some ("BAD".toList, []) := ⟨rfl, rfl⟩

/-! ### Claim C10: status lines for unknown codes -/

/-- C10: for a status code outside {200, 400, 404} the lookup table yields
the zero value `""`, and `WriteStatusLine` (a total function here, as in Go
the map index cannot panic) emits the status line with an empty reason
phrase. -/
theorem claim_C10 (res : Response) (h200 : res.StatusCode ≠ 200)
    (h400 : res.StatusCode ≠ 400) (h404 : res.StatusCode ≠ 404) :
    mapStatusWithMessage res.StatusCode = "" ∧
    writeStatusLine res = res.Proto ++ " " ++ toString res.StatusCode ++ " " ++ "" ++ "\r\n" := by
  have hm : mapStatusWithMessage res.StatusCode = "" := by
    unfold mapStatusWithMessage
    rw [if_neg h200, if_neg h400, if_neg h404]
  exact ⟨hm, by unfold writeStatusLine; rw [hm]⟩

/-- C10 witness: status code 999. -/
theorem claim_C10_witness :
    mapStatusWithMessage (Response.mk 999 "HTTP/1.1" [] none "").StatusCode = "" ∧
    writeStatusLine (Response.mk 999 "HTTP/1.1" [] none "") =
      (Response.mk 999 "HTTP/1.1" [] none "").Proto ++ " " ++
        toString (Response.mk 999 "HTTP/1.1" [] none "").StatusCode ++ " " ++ "" ++ "\r\n" :=
  claim_C10 (Response.mk 999 "HTTP/1.1" [] none "") (by decide) (by decide) (by decide)

/-! ### Claim C6: header-line read failures -/

/-- C6 counterexample: on the stream `GET / HTTP/1.1\r\nHost: h\r\nX` the
header loop's third `ReadLine` fails (the residual stream `X` has no CRLF),
yet `ReadRequest` returns a request successfully rather than an error: the
Go loop `break`s on a read failure and proceeds to validation. -/
theorem claim_C6_cex :
    readLine ("X".toList) = none ∧
    (readRequest ("GET / HTTP/1.1\r\nHost: h\r\nX".toList)).1 =
      Except.ok ⟨"GET", "/", "HTTP/1.1", [], "h", false⟩ := ⟨rfl, rfl⟩

/-- C6 (amended): a header-line read failure ends header parsing without an
error of its own — `ReadRequest`'s outcome is then decided by validation —
and header parsing ends only at a read failure, at the first empty line, or
at a header parse error, continuing otherwise. -/
theorem claim_C6 :
    (∀ (n : Nat) (r : Request) (s : List Char), readLine s = none →
      readHeaders (n + 1) r s = Except.ok r) ∧
    (∀ (n : Nat) (r : Request) (s rest : List Char), readLine s = some ([], rest) →
      readHeaders (n + 1) r s = Except.ok r) ∧
    (∀ (n : Nat) (r r' : Request) (s line rest : List Char),
      readLine s = some (line, rest) → line ≠ [] →
      parseRequestHeader r line = some r' →
      readHeaders (n + 1) r s = readHeaders n r' rest) ∧
    (∀ (n : Nat) (r : Request) (s line rest : List Char),
      readLine s = some (line, rest) → line ≠ [] →
      parseRequestHeader r line = none →
      readHeaders (n + 1) r s = Except.error "ErrBadHeader") := by
  refine ⟨?_, ?_, ?_, ?_⟩
  · intro n r s h
    rw [readHeaders, h]
  · intro n r s rest h
    rw [readHeaders, h]
    simp
  · intro n r r' s line rest h hne hp
    rw [readHeaders, h]
    dsimp only
    rw [if_neg hne, hp]
  · intro n r s line rest h hne hp
    rw [readHeaders, h]
    dsimp only
    rw [if_neg hne, hp]

/-- C6 witness: concrete instances of the read-failure and continuation
cases of the amended claim. -/
theorem claim_C6_witness :
    readHeaders 5 ⟨"GET", "/", "HTTP/1.1", [], "h", false⟩ ("X".toList) =
      Except.ok ⟨"GET", "/", "HTTP/1.1", [], "h", false⟩ ∧
    readHeaders 5 ⟨"GET", "/", "HTTP/1.1", [], "", false⟩ ("Host: h\r\nX".toList) =
      readHeaders 4 ⟨"GET", "/", "HTTP/1.1", [], "h", false⟩ ("X".toList) :=
  ⟨claim_C6.1 4 ⟨"GET", "/", "HTTP/1.1", [], "h", false⟩ ("X".toList) rfl,
   claim_C6.2.2.1 4 ⟨"GET", "/", "HTTP/1.1", [], "", false⟩
     ⟨"GET", "/", "HTTP/1.1", [], "h", false⟩ ("Host: h\r\nX".toList)
     ("Host: h".toList) ("X".toList) rfl (by decide) rfl⟩

/-! ### Claim C4: the four validation rules -/

lemma validateRequest_eq_none_iff (r : Request) :
    validateRequest r = none ↔
      (r.Method = "GET" ∧ r.URL ≠ "" ∧ r.URL.toList.head? = some '/' ∧
        r.Proto = "HTTP/1.1" ∧ r.Host ≠ "") := by
  unfold validateRequest
  split_ifs with h1 h2 h3 h4 <;> simp_all <;> tauto

/-- C4: a request is returned by `ReadRequest` only if all four validation
rules hold (method `GET`, non-empty target starting with `/`, version
`HTTP/1.1`, non-empty host), and `ValidateRequest` rejects (so `ReadRequest`
returns an error and no request) whenever any rule fails. -/
theorem claim_C4 :
    (∀ (s : List Char) (req : Request), (readRequest s).1 = Except.ok req →
      req.Method = "GET" ∧ req.URL ≠ "" ∧ req.URL.toList.head? = some '/' ∧
        req.Proto = "HTTP/1.1" ∧ req.Host ≠ "") ∧
    (∀ r : Request,
      ¬(r.Method = "GET" ∧ r.URL ≠ "" ∧ r.URL.toList.head? = some '/' ∧
        r.Proto = "HTTP/1.1" ∧ r.Host ≠ "") → validateRequest r ≠ none) := by
  constructor
  · intro s req h
    unfold readRequest at h
    rcases h1 : readLine s with _ | ⟨line, rest⟩
    · rw [h1] at h; simp at h
    rw [h1] at h
    dsimp only at h
    rcases h2 : parseRequestInitLine line with _ | ⟨m, u, p⟩
    · rw [h2] at h; simp at h
    rw [h2] at h
    dsimp only at h
    rcases h3 : readHeaders (rest.length + 1)
        ⟨m, u, p, [], "", false⟩ rest with e | r
    · rw [h3] at h; simp at h
    rw [h3] at h
    dsimp only at h
    rcases h4 : validateRequest r with _ | e
    · rw [h4] at h
      dsimp only at h
      injection h with h5
      subst h5
      exact (validateRequest_eq_none_iff r).mp h4
    · rw [h4] at h; simp at h
  · intro r hnot hnone
    exact hnot ((validateRequest_eq_none_iff r).mp hnone)

/-- C4 witness: a valid request satisfies the four rules; an invalid method
is rejected by validation. -/
theorem claim_C4_witness :
    ((⟨"GET", "/", "HTTP/1.1", [], "h", false⟩ : Request).Method = "GET" ∧
      (⟨"GET", "/", "HTTP/1.1", [], "h", false⟩ : Request).URL ≠ "" ∧
      (⟨"GET", "/", "HTTP/1.1", [], "h", false⟩ : Request).URL.toList.head? = some '/' ∧
      (⟨"GET", "/", "HTTP/1.1", [], "h", false⟩ : Request).Proto = "HTTP/1.1" ∧
      (⟨"GET", "/", "HTTP/1.1", [], "h", false⟩ : Request).Host ≠ "") ∧
    validateRequest ⟨"POST", "/", "HTTP/1.1", [], "h", false⟩ ≠ none :=
  ⟨claim_C4.1 ("GET / HTTP/1.1\r\nHost: h\r\n".toList)
      ⟨"GET", "/", "HTTP/1.1", [], "h", false⟩ rfl,
   claim_C4.2 ⟨"POST", "/", "HTTP/1.1", [], "h", false⟩ (by decide)⟩

end Triton

namespace Triton

/-! ### Claim C9: sorted header serialization -/

lemma lookup_eq_of_perm {l1 l2 : List (String × String)} (hp : l1.Perm l2) :
    (l1.map Prod.fst).Nodup → ∀ k : String, l1.lookup k = l2.lookup k := by
  induction hp with
  | nil => intro _ _; rfl
  | cons a p ih =>
    intro nd k
    rw [List.map_cons, List.nodup_cons] at nd
    rcases a with ⟨ak, av⟩
    rcases eq_or_ne k ak with hk | hk
    · subst hk; simp [List.lookup]
    · have hb : (k == ak) = false := beq_false_of_ne hk
      simp [List.lookup, hb, ih nd.2 k]
  | swap a b l =>
    intro nd k
    rcases a with ⟨ak, av⟩
    rcases b with ⟨bk, bv⟩
    rw [List.map_cons, List.map_cons, List.nodup_cons, List.mem_cons] at nd
    have hba : bk ≠ ak := fun he => nd.1 (Or.inl he)
    rcases eq_or_ne k bk with hkb | hkb
    · have ht : (k == bk) = true := by rw [hkb]; exact beq_self_eq_true bk
      have hb : (k == ak) = false := beq_false_of_ne (fun he => hba (hkb.symm.trans he))
      simp [List.lookup, ht, hb]
    · rcases eq_or_ne k ak with hka | hka
      · have ht : (k == ak) = true := by rw [hka]; exact beq_self_eq_true ak
        have hb : (k == bk) = false := beq_false_of_ne hkb
        simp [List.lookup, ht, hb]
      · have hb1 : (k == bk) = false := beq_false_of_ne hkb
        have hb2 : (k == ak) = false := beq_false_of_ne hka
        simp [List.lookup, hb1, hb2]
  | trans p1 p2 ih1 ih2 =>
    intro nd k
    exact (ih1 nd k).trans (ih2 (((p1.map Prod.fst).nodup_iff).mp nd) k)

lemma listLe_total : ∀ a b : List Char, listLe a b = true ∨ listLe b a = true
  | [], _ => Or.inl rfl
  | _ :: _, [] => Or.inr rfl
  | a :: as, b :: bs => by
    rcases eq_or_ne a b with h | h
    · subst h
      rcases listLe_total as bs with h1 | h1
      · exact Or.inl (by simp [listLe, h1])
      · exact Or.inr (by simp [listLe, h1])
    · rcases lt_or_gt_of_ne h with hlt | hgt
      · exact Or.inl (by simp [listLe, h, hlt])
      · exact Or.inr (by simp [listLe, Ne.symm h, hgt])

lemma listLe_trans : ∀ a b c : List Char, listLe a b = true → listLe b c = true →
    listLe a c = true
  | [], _, _, _, _ => rfl
  | _ :: _, [], _, h1, _ => by simp [listLe] at h1
  | _ :: _, _ :: _, [], _, h2 => by simp [listLe] at h2
  | a :: as, b :: bs, c :: cs, h1, h2 => by
    rcases eq_or_ne a b with hab | hab
    · subst hab
      rw [listLe, if_pos rfl] at h1
      rcases eq_or_ne a c with hac | hac
      · subst hac
        rw [listLe, if_pos rfl] at h2 ⊢
        exact listLe_trans as bs cs h1 h2
      · rw [listLe, if_neg hac] at h2 ⊢
        exact h2
    · have h1lt : a < b := by simpa [listLe, hab] using h1
      rcases eq_or_ne b c with hbc | hbc
      · subst hbc
        simp [listLe, hab, h1lt]
      · have h2lt : b < c := by simpa [listLe, hbc] using h2
        have hac : a < c := lt_trans h1lt h2lt
        simp [listLe, ne_of_lt hac, hac]

lemma listLe_antisymm : ∀ a b : List Char, listLe a b = true → listLe b a = true → a = b
  | [], [], _, _ => rfl
  | [], _ :: _, _, h2 => by simp [listLe] at h2
  | _ :: _, [], h1, _ => by simp [listLe] at h1
  | a :: as, b :: bs, h1, h2 => by
    rcases eq_or_ne a b with hab | hab
    · subst hab
      rw [listLe, if_pos rfl] at h1 h2
      rw [listLe_antisymm as bs h1 h2]
    · have h1lt : a < b := by simpa [listLe, hab] using h1
      have h2lt : b < a := by simpa [listLe, Ne.symm hab] using h2
      exact absurd (lt_trans h1lt h2lt) (lt_irrefl a)

/-- C9: `WriteSortedHeaders` emits headers in sorted key order with a
terminating blank CRLF line, so two responses whose header maps are equal
(here: association lists that are permutations of each other, with no
duplicate keys, as for a Go map traversed in two different orders) produce
byte-identical serialized output; concretely, `Connection` is emitted
before `Date` regardless of insertion order, each as `Key: value` + CRLF,
ending with a blank CRLF. -/
theorem claim_C9 :
    (∀ h1 h2 : List (String × String), h1.Perm h2 → (h1.map Prod.fst).Nodup →
      writeSortedHeaders h1 = writeSortedHeaders h2) ∧
    writeSortedHeaders [("Date", "d"), ("Connection", "close")] =
      "Connection: close" ++ "\r\n" ++ "Date: d" ++ "\r\n" ++ "\r\n" := by
  constructor
  · intro h1 h2 hp nd
    haveI hTot : IsTotal String (fun a b => strLeB a b = true) :=
      ⟨fun a b => listLe_total a.toList b.toList⟩
    haveI hTrans : IsTrans String (fun a b => strLeB a b = true) :=
      ⟨fun a b c => listLe_trans a.toList b.toList c.toList⟩
    haveI hAnti : IsAntisymm String (fun a b => strLeB a b = true) :=
      ⟨fun a b x y => String.toList_inj.mp (listLe_antisymm a.toList b.toList x y)⟩
    have hlen : h1.length = h2.length := hp.length_eq
    have hsort : List.insertionSort (fun a b => strLeB a b = true) (h1.map Prod.fst) =
        List.insertionSort (fun a b => strLeB a b = true) (h2.map Prod.fst) := by
      refine List.eq_of_perm_of_sorted ?_
        (List.sorted_insertionSort _ _) (List.sorted_insertionSort _ _)
      exact ((List.perm_insertionSort _ _).trans (hp.map Prod.fst)).trans
        (List.perm_insertionSort _ _).symm
    have hfun : (fun k : String => k ++ ": " ++ ((h1.lookup k).getD "") ++ "\r\n") =
        (fun k : String => k ++ ": " ++ ((h2.lookup k).getD "") ++ "\r\n") :=
      funext (fun k => by rw [lookup_eq_of_perm hp nd k])
    unfold writeSortedHeaders
    rw [hlen, hsort, hfun]
  · rfl

/-- C9 witness: the same two-entry header map inserted in opposite orders
serializes identically. -/
theorem claim_C9_witness :
    writeSortedHeaders [("B", "2"), ("A", "1")] =
      writeSortedHeaders [("A", "1"), ("B", "2")] :=
  claim_C9.1 [("B", "2"), ("A", "1")] [("A", "1"), ("B", "2")]
    (List.Perm.swap ("A", "1") ("B", "2") []) (by decide)

end Triton

namespace Triton

/-! ### Connection-level lemmas -/

lemma connStep_read_ok (good : Request → Response) (date : String) (remaining : List Char)
    (r : ReadResult) (hok : r.err = ErrKind.noErr) (hne : r.data ≠ []) :
    connStep good date remaining r = processBuffer good date (remaining ++ r.data) := by
  have hlen : r.data.length ≠ 0 := by simpa [List.length_eq_zero] using hne
  have c1 : ¬((r.err ≠ ErrKind.noErr ∨ r.data.length = 0) ∧ remaining ≠ []) := by
    rintro ⟨h, _⟩
    rcases h with h | h
    · exact h hok
    · exact hlen h
  have c2 : ¬((r.err ≠ ErrKind.noErr ∨ r.data.length = 0) ∧ remaining = [] ∧
      r.err = ErrKind.eof) := by
    rintro ⟨h, _, _⟩
    rcases h with h | h
    · exact h hok
    · exact hlen h
  have c3 : ¬(r.err = ErrKind.timeout) := by rw [hok]; simp
  unfold connStep
  rw [if_neg c1, if_neg c2, if_neg c3]

lemma processBuffer_delim (good : Request → Response) (date : String) (buf : List Char)
    (i : Nat) (hd : lastDelimIdx buf = some i) :
    processBuffer good date buf =
      ((processCandidates good date (splitOnDelim (buf.take i))).1,
        if (processCandidates good date (splitOnDelim (buf.take i))).2 then none
        else some (buf.drop (i + 4))) := by
  unfold processBuffer
  rw [hd]

lemma processCandidates_cons_ok (good : Request → Response) (date : String) (c : List Char)
    (rest : List (List Char)) (req : Request)
    (hok : (readRequest (c ++ CRLFc)).1 = Except.ok req) (hcl : req.Close = false) :
    processCandidates good date (c :: rest) =
      (finalizeResponse req (good req) :: (processCandidates good date rest).1,
        (processCandidates good date rest).2) := by
  have hncl : ¬(req.Close = true) := by rw [hcl]; simp
  rw [processCandidates, hok]
  dsimp only
  rw [if_neg hncl]

lemma processCandidates_cons_err (good : Request → Response) (date : String) (c : List Char)
    (rest : List (List Char)) (e : String)
    (herr : (readRequest (c ++ CRLFc)).1 = Except.error e) :
    processCandidates good date (c :: rest) = ([handleBadRequest date], true) := by
  rw [processCandidates, herr]

lemma processCandidates_cons_close (good : Request → Response) (date : String) (c : List Char)
    (rest : List (List Char)) (req : Request)
    (hok : (readRequest (c ++ CRLFc)).1 = Except.ok req) (hcl : req.Close = true) :
    processCandidates good date (c :: rest) = ([finalizeResponse req (good req)], true) := by
  rw [processCandidates, hok]
  dsimp only
  rw [if_pos hcl]

lemma processCandidates_all_ok (good : Request → Response) (date : String)
    (cands : List (List Char))
    (hall : ∀ c ∈ cands, ∃ rq, (readRequest (c ++ CRLFc)).1 = Except.ok rq ∧ rq.Close = false) :
    processCandidates good date cands = (cands.map (respOf good date), false) := by
  induction cands with
  | nil => rfl
  | cons c cs ih =>
    obtain ⟨rq, hok, hcl⟩ := hall c (List.mem_cons_self c cs)
    have ih' := ih (fun x hx => hall x (List.mem_cons_of_mem c hx))
    have hr : respOf good date c = finalizeResponse rq (good rq) := by
      unfold respOf; rw [hok]
    rw [processCandidates_cons_ok good date c cs rq hok hcl, ih', List.map_cons, hr]

lemma processCandidates_append (good : Request → Response) (date : String)
    (pre rest : List (List Char))
    (hpre : ∀ c ∈ pre, ∃ rq, (readRequest (c ++ CRLFc)).1 = Except.ok rq ∧ rq.Close = false) :
    processCandidates good date (pre ++ rest) =
      (pre.map (respOf good date) ++ (processCandidates good date rest).1,
        (processCandidates good date rest).2) := by
  induction pre with
  | nil => simp
  | cons c cs ih =>
    obtain ⟨rq, hok, hcl⟩ := hpre c (List.mem_cons_self c cs)
    have ih' := ih (fun x hx => hpre x (List.mem_cons_of_mem c hx))
    have hr : respOf good date c = finalizeResponse rq (good rq) := by
      unfold respOf; rw [hok]
    rw [List.cons_append, processCandidates_cons_ok good date c (cs ++ rest) rq hok hcl, ih',
      List.map_cons, hr]
    simp

end Triton

namespace Triton

/-! ### Claims about the connection state machine -/

/-- C1: after a successful read whose accumulated buffer contains the CRLF
CRLF terminator, the connection splits the buffer at the last terminator
occurrence, processes the candidates strictly in arrival order (the trace
lists the responses in the order they are written), and retains exactly the
bytes after the last terminator as the next buffer (stated for a batch
whose candidates all parse and do not request close, so that the connection
survives to the next cycle). -/
theorem claim_C1 (good : Request → Response) (date : String) (remaining : List Char)
    (r : ReadResult) (i : Nat) (hok : r.err = ErrKind.noErr) (hne : r.data ≠ [])
    (hd : lastDelimIdx (remaining ++ r.data) = some i)
    (hall : ∀ c ∈ splitOnDelim ((remaining ++ r.data).take i),
      ∃ rq, (readRequest (c ++ CRLFc)).1 = Except.ok rq ∧ rq.Close = false) :
    connStep good date remaining r =
      ((splitOnDelim ((remaining ++ r.data).take i)).map (respOf good date),
        some ((remaining ++ r.data).drop (i + 4))) := by
  rw [connStep_read_ok good date remaining r hok hne,
    processBuffer_delim good date _ i hd,
    processCandidates_all_ok good date (splitOnDelim ((remaining ++ r.data).take i)) hall]
  simp

/-- The two pipelined requests of the spec example, sent in one read. -/
def dataPipe : List Char :=
  ("GET /a HTTP/1.1\r\nHost: h\r\n\r\nGET /b HTTP/1.1\r\nHost: h\r\n\r\n").toList

/-- First pipelined candidate. -/
def cand1 : List Char := ("GET /a HTTP/1.1\r\nHost: h").toList

/-- Second pipelined candidate. -/
def cand2 : List Char := ("GET /b HTTP/1.1\r\nHost: h").toList

/-- The parsed request for `/a`. -/
def reqA : Request := ⟨"GET", "/a", "HTTP/1.1", [], "h", false⟩

/-- The parsed request for `/b`. -/
def reqB : Request := ⟨"GET", "/b", "HTTP/1.1", [], "h", false⟩

/-- A trivial stand-in for the filesystem collaborator `HandleGoodRequest`. -/
def good0 : Request → Response := fun _ => ⟨200, "", [], none, ""⟩

/-- C1 witness: two complete pipelined requests arriving in one read yield
the two responses in request order and an empty retained buffer. -/
theorem claim_C1_witness :
    connStep good0 "d" [] ⟨dataPipe, ErrKind.noErr⟩ =
      ((splitOnDelim ((([] : List Char) ++ dataPipe).take 52)).map (respOf good0 "d"),
        some ((([] : List Char) ++ dataPipe).drop (52 + 4))) := by
  refine claim_C1 good0 "d" [] ⟨dataPipe, ErrKind.noErr⟩ 52 rfl (by decide) (by decide) ?_
  intro c hc
  have hs : splitOnDelim ((([] : List Char) ++ dataPipe).take 52) = [cand1, cand2] := by decide
  rw [hs] at hc
  simp only [List.mem_cons, List.not_mem_nil, or_false] at hc
  rcases hc with rfl | rfl
  · exact ⟨reqA, rfl, rfl⟩
  · exact ⟨reqB, rfl, rfl⟩

/-- C3 counterexample: a read failure that is neither end-of-stream nor a
timeout (for example a connection reset), with an empty buffer, does not
close the connection: `HandleConnection` falls through both error checks
and loops, contradicting the claim that every read error with an empty
buffer closes the connection silently. -/
theorem claim_C3_cex :
    connStep good0 "date" [] ⟨[], ErrKind.other⟩ = ([], some []) ∧
    connStep good0 "date" [] ⟨[], ErrKind.other⟩ ≠ ([], none) := by
  exact ⟨rfl, by decide⟩

/-- C3 (amended): on a read error or zero-byte read, a non-empty buffer
yields exactly one 400 response carrying `Connection: close` and the
connection closes; with an empty buffer the connection closes silently
(writing nothing) only when the error is end-of-stream or a timeout, while
any other error (or an error-free zero-byte read) leaves the connection
looping: the iteration writes nothing and keeps reading. -/
theorem claim_C3 (good : Request → Response) (date : String) (remaining : List Char)
    (r : ReadResult) (herr : r.err ≠ ErrKind.noErr ∨ r.data.length = 0) :
    (remaining ≠ [] →
      connStep good date remaining r = ([handleBadRequest date], none) ∧
      (handleBadRequest date).StatusCode = 400 ∧
      (canonicalHeaderKey "Connection", "close") ∈ (handleBadRequest date).Header) ∧
    (remaining = [] → r.err = ErrKind.eof ∨ r.err = ErrKind.timeout →
      connStep good date remaining r = ([], none)) ∧
    (remaining = [] → r.err = ErrKind.other →
      connStep good date remaining r = processBuffer good date r.data) ∧
    (remaining = [] → r.err = ErrKind.noErr →
      connStep good date remaining r = ([], some [])) := by
  refine ⟨?_, ?_, ?_, ?_⟩
  · intro hne
    refine ⟨?_, rfl, by simp [handleBadRequest]⟩
    unfold connStep
    rw [if_pos ⟨herr, hne⟩]
  · intro hrem hcase
    have c1 : ¬((r.err ≠ ErrKind.noErr ∨ r.data.length = 0) ∧ remaining ≠ []) := by
      rintro ⟨_, h2⟩; exact h2 hrem
    rcases hcase with he | ht
    · unfold connStep
      rw [if_neg c1, if_pos ⟨herr, hrem, he⟩]
    · have c2 : ¬((r.err ≠ ErrKind.noErr ∨ r.data.length = 0) ∧ remaining = [] ∧
          r.err = ErrKind.eof) := by
        rintro ⟨_, _, h3⟩
        rw [ht] at h3
        simp at h3
      unfold connStep
      rw [if_neg c1, if_neg c2, if_pos ht]
  · intro hrem hother
    have c1 : ¬((r.err ≠ ErrKind.noErr ∨ r.data.length = 0) ∧ remaining ≠ []) := by
      rintro ⟨_, h2⟩; exact h2 hrem
    have c2 : ¬((r.err ≠ ErrKind.noErr ∨ r.data.length = 0) ∧ remaining = [] ∧
        r.err = ErrKind.eof) := by
      rintro ⟨_, _, h3⟩
      rw [hother] at h3
      simp at h3
    have c3 : ¬(r.err = ErrKind.timeout) := by rw [hother]; simp
    unfold connStep
    rw [if_neg c1, if_neg c2, if_neg c3, hrem, List.nil_append]
  · intro hrem hno
    have hdata : r.data = [] := by
      rcases herr with h | h
      · exact absurd hno h
      · exact List.length_eq_zero.mp h
    have c1 : ¬((r.err ≠ ErrKind.noErr ∨ r.data.length = 0) ∧ remaining ≠ []) := by
      rintro ⟨_, h2⟩; exact h2 hrem
    have c2 : ¬((r.err ≠ ErrKind.noErr ∨ r.data.length = 0) ∧ remaining = [] ∧
        r.err = ErrKind.eof) := by
      rintro ⟨_, _, h3⟩
      rw [hno] at h3
      simp at h3
    have c3 : ¬(r.err = ErrKind.timeout) := by rw [hno]; simp
    unfold connStep
    rw [if_neg c1, if_neg c2, if_neg c3, hrem, hdata]
    rfl

/-- A partial request line with no terminator, as retained buffer. -/
def remPartial : List Char := ("GET /a HTTP/1.1\r\n").toList

/-- C3 witness: a timeout after a partial request yields a single 400 with
`Connection: close` and the connection closes. -/
theorem claim_C3_witness :
    connStep good0 "d" remPartial ⟨[], ErrKind.timeout⟩ = ([handleBadRequest "d"], none) ∧
    (handleBadRequest "d").StatusCode = 400 ∧
    (canonicalHeaderKey "Connection", "close") ∈ (handleBadRequest "d").Header :=
  (claim_C3 good0 "d" remPartial ⟨[], ErrKind.timeout⟩ (Or.inr rfl)).1 (by decide)

/-- C7: if some candidate of a batch fails to parse, the connection writes
the responses of the preceding (valid, non-closing) candidates, then one
400 response with `Connection: close`, and closes, never touching the
remaining candidates of the batch (which may be arbitrary, in particular
valid). -/
theorem claim_C7 (good : Request → Response) (date : String) (remaining : List Char)
    (r : ReadResult) (i : Nat) (pre post : List (List Char)) (bad : List Char)
    (hok : r.err = ErrKind.noErr) (hne : r.data ≠ [])
    (hd : lastDelimIdx (remaining ++ r.data) = some i)
    (hsplit : splitOnDelim ((remaining ++ r.data).take i) = pre ++ bad :: post)
    (hpre : ∀ c ∈ pre, ∃ rq, (readRequest (c ++ CRLFc)).1 = Except.ok rq ∧ rq.Close = false)
    (hbad : ∃ e, (readRequest (bad ++ CRLFc)).1 = Except.error e) :
    connStep good date remaining r =
      (pre.map (respOf good date) ++ [handleBadRequest date], none) ∧
    (handleBadRequest date).StatusCode = 400 ∧
    (canonicalHeaderKey "Connection", "close") ∈ (handleBadRequest date).Header := by
  obtain ⟨e, he⟩ := hbad
  refine ⟨?_, rfl, by simp [handleBadRequest]⟩
  rw [connStep_read_ok good date remaining r hok hne,
    processBuffer_delim good date _ i hd, hsplit,
    processCandidates_append good date pre (bad :: post) hpre,
    processCandidates_cons_err good date bad post e he]
  simp

/-- The pipelined batch whose middle candidate is malformed. -/
def dataBad : List Char :=
  ("GET /a HTTP/1.1\r\nHost: h\r\n\r\nBADREQ\r\n\r\nGET /c HTTP/1.1\r\nHost: h\r\n\r\n").toList

/-- The malformed candidate. -/
def candBad : List Char := ("BADREQ").toList

/-- The valid candidate following the malformed one. -/
def candC : List Char := ("GET /c HTTP/1.1\r\nHost: h").toList

/-- C7 witness: valid request, malformed request, valid request in one
read: the response for the first, then one 400, and the connection closes
without processing the third. -/
theorem claim_C7_witness :
    connStep good0 "d" [] ⟨dataBad, ErrKind.noErr⟩ =
      ([cand1].map (respOf good0 "d") ++ [handleBadRequest "d"], none) ∧
    (handleBadRequest "d").StatusCode = 400 ∧
    (canonicalHeaderKey "Connection", "close") ∈ (handleBadRequest "d").Header := by
  refine claim_C7 good0 "d" [] ⟨dataBad, ErrKind.noErr⟩ 62 [cand1] [candC] candBad
    rfl (by decide) (by decide) (by decide) ?_ ⟨"ErrParseInitLine", rfl⟩
  intro c hc
  rw [List.mem_singleton] at hc
  subst hc
  exact ⟨reqA, rfl, rfl⟩

/-- C8: if a candidate parses to a request with the Close flag set, the
connection writes the responses of the preceding candidates, then the
response for that request, and closes at once, never touching the
remaining candidates of the batch. -/
theorem claim_C8 (good : Request → Response) (date : String) (remaining : List Char)
    (r : ReadResult) (i : Nat) (pre post : List (List Char)) (c : List Char) (req : Request)
    (hok : r.err = ErrKind.noErr) (hne : r.data ≠ [])
    (hd : lastDelimIdx (remaining ++ r.data) = some i)
    (hsplit : splitOnDelim ((remaining ++ r.data).take i) = pre ++ c :: post)
    (hpre : ∀ x ∈ pre, ∃ rq, (readRequest (x ++ CRLFc)).1 = Except.ok rq ∧ rq.Close = false)
    (hc : (readRequest (c ++ CRLFc)).1 = Except.ok req) (hcl : req.Close = true) :
    connStep good date remaining r =
      (pre.map (respOf good date) ++ [finalizeResponse req (good req)], none) := by
  rw [connStep_read_ok good date remaining r hok hne,
    processBuffer_delim good date _ i hd, hsplit,
    processCandidates_append good date pre (c :: post) hpre,
    processCandidates_cons_close good date c post req hc hcl]
  simp

/-- The pipelined batch whose first request carries `Connection: close`. -/
def dataClose : List Char :=
  ("GET /a HTTP/1.1\r\nHost: h\r\nConnection: close\r\n\r\nGET /b HTTP/1.1\r\nHost: h\r\n\r\n").toList

/-- The candidate carrying `Connection: close`. -/
def candClose : List Char := ("GET /a HTTP/1.1\r\nHost: h\r\nConnection: close").toList

/-- The parsed request for `/a` with the Close flag set. -/
def reqClose : Request := ⟨"GET", "/a", "HTTP/1.1", [], "h", true⟩

/-- C8 witness: a closing request followed by a pipelined valid request in
the same read: only the first response is written and the connection
closes. -/
theorem claim_C8_witness :
    connStep good0 "d" [] ⟨dataClose, ErrKind.noErr⟩ =
      (([] : List (List Char)).map (respOf good0 "d") ++
        [finalizeResponse reqClose (good0 reqClose)], none) :=
  claim_C8 good0 "d" [] ⟨dataClose, ErrKind.noErr⟩ 71 [] [cand2] candClose reqClose
    rfl (by decide) (by decide) (by decide)
    (fun x hx => absurd hx (List.not_mem_nil x)) rfl rfl

end Triton
